import Mathlib

/-!
Verification development for the PMapper repository.

The repository parts under verification are:
* `principalmapper/analysis/find_risks.py` — risk-finding generators over an access graph;
* `principalmapper/util/boto_tools.py` — session acquisition helpers.

External collaborators of `find_risks.py` (the authorization engine of
`principalmapper.querying.query_interface`, the `Graph`/`Node`/`Edge`/`Finding`/`Report`
data classes of `principalmapper.common` and `principalmapper.analysis`, and the
`can_privesc` preset) are not part of the source tree under verification; where a
definition below stands in for one of them it is modelled from the specification
document and marked `Modelled from the spec:` in its doc comment.
-/

namespace PMapper

/-! ### Glob matching (spec §4.1)

`*` matches any run of characters, `?` matches exactly one character.  Matching is
case-insensitive for actions and case-sensitive for resource identifiers. -/

/-- Modelled from the spec: glob matching over character lists; `*` matches any run of
characters (equivalently: the rest of the pattern matches some suffix), `?` matches
exactly one character, any other character matches itself. -/
def globMatchL : List Char → List Char → Bool
  | [] => fun s => s.isEmpty
  | '*' :: ps => fun s => s.tails.any (globMatchL ps)
  | '?' :: ps => fun s =>
      match s with
      | [] => false
      | _ :: cs => globMatchL ps cs
  | p :: ps => fun s =>
      match s with
      | [] => false
      | c :: cs => (p == c) && globMatchL ps cs

/-- Modelled from the spec: case-sensitive glob match on strings (used for resources). -/
def glob_match (pat s : String) : Bool := globMatchL pat.data s.data

/-- Lower-cased character data of a string. -/
def lowerData (s : String) : List Char := s.data.map Char.toLower

/-- Modelled from the spec: case-insensitive glob match on strings (used for actions). -/
def glob_match_ci (pat s : String) : Bool := globMatchL (lowerData pat) (lowerData s)

/-- The Python expression `needle in haystack` on strings: substring containment. -/
def strIn (needle haystack : String) : Bool := decide (needle.data <:+: haystack.data)

/-! ### Policy model (spec §3, §4.1)

A policy document is an ordered sequence of statements; each statement has an effect,
action patterns, resource patterns, condition blocks and (for trust/resource policies)
principal elements. -/

/-- Modelled from the spec: the effect of a statement. -/
inductive Effect
  | Allow
  | Deny
deriving DecidableEq, Repr

/-- Modelled from the spec: a principal element of a trust/resource-policy statement,
naming either a service or an account. -/
inductive PrincipalSpec
  | service (name : String)
  | account (id : String)
deriving DecidableEq, Repr

/-- Modelled from the spec: one condition block — operator, context key, expected
values. -/
structure ConditionBlock where
  op : String
  key : String
  values : List String
deriving DecidableEq, Repr

/-- Modelled from the spec: one statement of a policy document. Identity-policy
statements carry an empty `principals` list. -/
structure Statement where
  effect : Effect
  actions : List String
  resources : List String
  conditions : List ConditionBlock
  principals : List PrincipalSpec
deriving DecidableEq, Repr

/-- Modelled from the spec: a policy document, an ordered sequence of statements. -/
structure PolicyDoc where
  statements : List Statement
deriving DecidableEq, Repr

/-- A request context: a map from context keys to values. -/
def Context := List (String × String)

instance : DecidableEq Context := inferInstanceAs (DecidableEq (List (String × String)))

/-- Lookup of a context key in a request context. -/
def lookupCtx (ctx : Context) (k : String) : Option String :=
  match ctx with
  | [] => none
  | (k', v) :: rest => if k' == k then some v else lookupCtx rest k

/-- Modelled from the spec: condition evaluation — exact or wildcard string/numeric
comparison against the supplied context map; an unrecognized condition operator causes
the condition to be unsatisfied (fails closed, never open); a missing context key is
unsatisfied. -/
def cond_satisfied (ctx : Context) (c : ConditionBlock) : Bool :=
  match lookupCtx ctx c.key with
  | none => false
  | some v =>
    if c.op == "StringEquals" then c.values.contains v
    else if c.op == "StringLike" then c.values.any (fun pat => glob_match pat v)
    else if c.op == "NumericEquals" then
      c.values.any (fun w =>
        match v.toNat?, w.toNat? with
        | some a, some b => a == b
        | _, _ => false)
    else if c.op == "Bool" then c.values.contains v
    else false

/-- Modelled from the spec: the action patterns of a statement match an action
(case-insensitive glob). An empty action set matches nothing. -/
def matches_action (s : Statement) (action : String) : Bool :=
  s.actions.any (fun pat => glob_match_ci pat action)

/-- Modelled from the spec: the resource patterns of a statement match a resource
(case-sensitive glob). An empty resource set matches nothing. -/
def matches_resource (s : Statement) (resource : String) : Bool :=
  s.resources.any (fun pat => glob_match pat resource)

/-- The second-factor (MFA) context key. -/
def mfaKey : String := "aws:MultiFactorAuthPresent"

/-- A condition block is a second-factor (MFA) requirement when it constrains the MFA
context key. -/
def isMfaCond (c : ConditionBlock) : Bool := c.key == mfaKey

/-- Modelled from the spec: a statement is an applicable explicit Deny for the request —
effect Deny, action and resource patterns match, and all conditions are satisfied. -/
def deny_matches (s : Statement) (action resource : String) (ctx : Context) : Bool :=
  decide (s.effect = Effect.Deny) && matches_action s action && matches_resource s resource
    && s.conditions.all (cond_satisfied ctx)

/-- Modelled from the spec: a statement is an applicable explicit Allow for the request —
effect Allow, action and resource patterns match, and all conditions other than a
second-factor (MFA) requirement are satisfied (an unmet MFA requirement does not block
the allow; it sets the secondary flag instead, spec §4.2 step 3 and §8). -/
def allow_matches (s : Statement) (action resource : String) (ctx : Context) : Bool :=
  decide (s.effect = Effect.Allow) && matches_action s action && matches_resource s resource
    && (s.conditions.filter (fun c => !isMfaCond c)).all (cond_satisfied ctx)

/-- Modelled from the spec: an allow statement carries an unmet second-factor (MFA)
condition requirement under the supplied context. -/
def allow_mfa_unmet (s : Statement) (ctx : Context) : Bool :=
  (s.conditions.filter isMfaCond).any (fun c => !cond_satisfied ctx c)

/-! ### Authorization decisions (spec §3, §4.2) -/

/-- Modelled from the spec: the tri-state outcome of one evaluation. -/
inductive Decision
  | explicitAllow
  | explicitDeny
  | implicitDeny
deriving DecidableEq, Repr

/-- Modelled from the spec: an AuthorizationDecision — tri-state outcome plus a secondary
boolean flag indicating whether the allowing statement carried an unmet second-factor
condition requirement. -/
structure AuthDecision where
  decision : Decision
  needs_mfa : Bool
deriving DecidableEq, Repr

/-! ### Principals / nodes (spec §3, §6)

The `Node` class of `principalmapper.common` is not under verification; it is modelled
from the data model of the spec: identifier (ARN-like string), attached identity policies,
group policies (flattened from group memberships), optional permission boundary,
optional trust policy, derived `is_admin`, active long-term credential count
(`access_keys` at the call sites of `find_risks.py`), optional instance-profile
association. -/

/-- Modelled from the spec: a principal node of the access graph. -/
structure Node where
  arn : String
  identityPolicies : List PolicyDoc
  groupPolicies : List PolicyDoc
  permissionBoundary : Option PolicyDoc
  trust_policy : Option PolicyDoc
  is_admin : Bool
  access_keys : Nat
  instance_profile : Option String
deriving DecidableEq, Repr

/-- Modelled from the spec: the searchable display name of a node, derived from the
resource portion of the ARN (the part after the last colon). The original
`Node.searchable_name` method is not under src/. -/
def Node.searchable_name (n : Node) : String := (n.arn.splitOn ":").getLastD n.arn

/-- All statements of a list of policy documents, in order. -/
def stmtsOfDocs (docs : List PolicyDoc) : List Statement :=
  docs.foldr (fun d acc => d.statements ++ acc) []

/-- The statements of the permission boundary of a node (empty when absent). -/
def boundaryStatements (n : Node) : List Statement :=
  match n.permissionBoundary with
  | some b => b.statements
  | none => []

/-- Modelled from the spec (§4.2): every statement applicable to an identity evaluation —
collected from the identity policies of the principal, group policies, and permission
boundary. -/
def applicable_statements (n : Node) : List Statement :=
  stmtsOfDocs n.identityPolicies ++ stmtsOfDocs n.groupPolicies ++ boundaryStatements n

/-- Modelled from the spec (§4.2 step 2): single-level evaluation of a bare statement
list (used for the permission boundary: same algorithm, minus boundary-within-boundary
recursion). -/
def eval_statements (stmts : List Statement) (action resource : String) (ctx : Context) :
    Decision :=
  if stmts.any (fun s => deny_matches s action resource ctx) then Decision.explicitDeny
  else if stmts.any (fun s => allow_matches s action resource ctx) then Decision.explicitAllow
  else Decision.implicitDeny

/-- Modelled from the spec (§4.2): `evaluate_identity` — the provider
decision-combination algorithm reproduced locally.
1. If any applicable statement (identity, group or boundary) is an explicit Deny whose
   action/resource patterns match and whose conditions are satisfied, the result is
   ExplicitDeny.
2. Otherwise, if a permission boundary is present and does not itself allow the action,
   the result is ImplicitDeny.
3. Otherwise, if any identity or group statement is an applicable explicit Allow, the
   result is ExplicitAllow, with the secondary flag set when that statement carries an
   unmet second-factor (MFA) condition requirement.
4. Otherwise, ImplicitDeny. -/
def evaluate_identity (n : Node) (action resource : String) (ctx : Context) : AuthDecision :=
  let idGroup := stmtsOfDocs n.identityPolicies ++ stmtsOfDocs n.groupPolicies
  if (applicable_statements n).any (fun s => deny_matches s action resource ctx) then
    ⟨Decision.explicitDeny, false⟩
  else if (match n.permissionBoundary with
           | some b => !(decide (eval_statements b.statements action resource ctx
               = Decision.explicitAllow))
           | none => false) then
    ⟨Decision.implicitDeny, false⟩
  else
    match idGroup.find? (fun s => allow_matches s action resource ctx) with
    | some s => ⟨Decision.explicitAllow, allow_mfa_unmet s ctx⟩
    | none => ⟨Decision.implicitDeny, false⟩

/-- Modelled from the spec: the identity-evaluation entry point used by the risk layer
(`query_interface.local_check_authorization_handling_mfa`): returns whether the request
is authorized and whether the allowing statement carried an unmet second-factor
requirement. -/
def local_check_authorization_handling_mfa (n : Node) (action resource : String)
    (ctx : Context) : Bool × Bool :=
  let d := evaluate_identity n action resource ctx
  (decide (d.decision = Decision.explicitAllow), d.needs_mfa)

/-! ### Resource-policy evaluation (spec §4.2)

`query_interface.resource_policy_authorization` is not under src/; modelled from the
spec: walk the resource-policy statements looking for one whose principal element names
the given service or account and whose action/resource/condition match; an explicit deny
match on the resource side short-circuits to a deny result. -/

/-- Modelled from the spec: the result of a resource-policy evaluation. -/
inductive ResourcePolicyEvalResult
  | NO_MATCH
  | SERVICE_MATCH
  | ACCOUNT_MATCH
  | DENY_MATCH
deriving DecidableEq, Repr

/-- The principal element of a statement names the given service. -/
def principal_names_service (s : Statement) (svc : String) : Bool :=
  s.principals.any (fun p =>
    match p with
    | PrincipalSpec.service name => name == svc
    | PrincipalSpec.account _ => false)

/-- The principal element of a statement names the given account. -/
def principal_names_account (s : Statement) (acct : String) : Bool :=
  s.principals.any (fun p =>
    match p with
    | PrincipalSpec.service _ => false
    | PrincipalSpec.account id => id == acct)

/-- A resource-policy statement matches the request (action, resource and conditions). -/
def rp_stmt_matches (s : Statement) (action resource : String) (ctx : Context) : Bool :=
  matches_action s action && matches_resource s resource
    && s.conditions.all (cond_satisfied ctx)

/-- Modelled from the spec: `evaluate_resource_policy` /
`query_interface.resource_policy_authorization`. The `seeking` principal is a service
principal name; `account_id` is the calling account. An explicit deny whose principal
names the service or account and whose action/resource/conditions match short-circuits
to `DENY_MATCH`; otherwise an allow naming the service yields `SERVICE_MATCH`, an allow
naming the account yields `ACCOUNT_MATCH`, and otherwise `NO_MATCH`. A missing policy
matches nothing. The `must_match_principal` parameter is carried from the call sites
(always `false` in src/); the spec does not assign it further semantics, so it does not
alter the walk here. -/
def resource_policy_authorization (seeking : String) (account_id : String)
    (policy : Option PolicyDoc) (action : String) (resource_arn : String) (ctx : Context)
    (must_match_principal : Bool) : ResourcePolicyEvalResult :=
  let stmts := match policy with
    | some d => d.statements
    | none => []
  let _ := must_match_principal
  if stmts.any (fun s => decide (s.effect = Effect.Deny)
      && (principal_names_service s seeking || principal_names_account s account_id)
      && rp_stmt_matches s action resource_arn ctx) then
    ResourcePolicyEvalResult.DENY_MATCH
  else if stmts.any (fun s => decide (s.effect = Effect.Allow)
      && principal_names_service s seeking
      && rp_stmt_matches s action resource_arn ctx) then
    ResourcePolicyEvalResult.SERVICE_MATCH
  else if stmts.any (fun s => decide (s.effect = Effect.Allow)
      && principal_names_account s account_id
      && rp_stmt_matches s action resource_arn ctx) then
    ResourcePolicyEvalResult.ACCOUNT_MATCH
  else
    ResourcePolicyEvalResult.NO_MATCH

/-- Modelled from the spec: `principalmapper.util.arns.get_account_id` — the account
component of an ARN (the fifth colon-separated field); not under src/. Out-of-range
access is modelled as the empty string. -/
def get_account_id (arn : String) : String := ((arn.splitOn ":").drop 4).headD ""

/-! ### Graph, edges, findings, reports (spec §3, §6)

The `Edge`, `Graph`, `Finding` and `Report` classes are not under src/; modelled from
the data model of the spec and from how `find_risks.py` consumes them. -/

/-- Python exception kinds raised by the translated code. `nameError` also covers
UnboundLocalError, which is a subclass of NameError. -/
inductive PyErr
  | typeError
  | indexError
  | nameError
deriving DecidableEq, Repr

/-- Modelled from the spec: a directed edge — source and destination principals plus a
human-readable rationale. -/
structure Edge where
  source : Node
  destination : Node
  reason : String
deriving DecidableEq, Repr

/-- Modelled from the spec: the one-line rendering of an edge used in findings
(`Edge.describe_edge`, not under src/): source name, rationale, destination name. -/
def Edge.describe_edge (e : Edge) : String :=
  e.source.searchable_name ++ " " ++ e.reason ++ " " ++ e.destination.searchable_name

/-- Modelled from the spec: snapshot metadata — account identifier and collection
timestamp. The dictionary access `graph.metadata["account_id"]` of the source is the
`account_id` field here. -/
structure GraphMetadata where
  account_id : String
  collection_time : Nat
deriving DecidableEq, Repr

/-- Modelled from the spec: the access graph — nodes, edges and snapshot metadata. -/
structure Graph where
  nodes : List Node
  edges : List Edge
  metadata : GraphMetadata
deriving DecidableEq, Repr

/-- A finding, as described by the docstring of `find_risks.py`: title, severity
(Low|Medium|High), impact, description, recommendation. -/
structure Finding where
  title : String
  severity : String
  impact : String
  description : String
  recommendation : String
deriving DecidableEq, Repr

/-- Modelled from the spec: the `Report` object assembled by `gen_report` — account,
generation time, findings, and a source attribution string. -/
structure Report where
  account : String
  date_and_time : Nat
  findings : List Finding
  source : String
deriving DecidableEq, Repr

/-- The type of the external `can_privesc` preset
(`principalmapper.querying.presets.privesc`, not under src/): given the graph and a
node, returns whether the node can escalate privileges and the escalation edge
sequence. Kept as an explicit parameter of the translated generators. -/
def CanPrivesc : Type := Graph → Node → Bool × List Edge

/-- Modelled from the spec: `principalmapper.__version__` (not under src/). -/
def pmapper_version : String := "1.0.1"

/-! ### find_risks.py — finding generators -/

/-- The list of sensitive actions checked by `gen_mfa_actions_findings`
(find_risks.py lines 141-143). -/
def mfa_sensitive_actions : List String :=
  ["iam:CreateUser", "iam:CreateRole", "iam:CreateGroup", "iam:PutUserPolicy",
   "iam:PutRolePolicy", "iam:PutGroupPolicy", "iam:AttachUserPolicy",
   "iam:AttachRolePolicy", "iam:AttachGroupPolicy", "sts:AssumeRole"]

/-- find_risks.py lines 174-185: returns true if the node can call some action of the
list without MFA — the loop with early return translated as `List.any`. -/
def _can_call_without_mfa (node : Node) (actions : List String) : Bool :=
  actions.any (fun action =>
    let r := local_check_authorization_handling_mfa node action "*" []
    r.1 && !r.2)

/-- find_risks.py lines 137-145: the `affected_users` accumulated by
`gen_mfa_actions_findings` — users (ARN contains `:user/`) that are admins, hold at
least one access key, and can call a sensitive action without MFA. -/
def mfa_affected_users (g : Graph) : List Node :=
  g.nodes.filter (fun node =>
    strIn ":user/" node.arn && node.is_admin && decide (0 < node.access_keys)
      && _can_call_without_mfa node mfa_sensitive_actions)

/-- One bullet line of a node list in a finding description. -/
def bullet_line (n : Node) : String := "* " ++ n.searchable_name ++ "\n"

/-- A `description_body` accumulated over nodes by repeated `+=` of bullet lines. -/
def bullet_body (l : List Node) : String := l.foldl (fun acc n => acc ++ bullet_line n) ""

/-- The description preamble of the MFA finding (find_risks.py lines 148-154). -/
def mfa_preamble : String :=
  "In AWS, IAM Users can be configured to use an MFA device. When an IAM User has MFA " ++
  "enabled, they are required to provide the second factor of authentication when they " ++
  "log in to the AWS Console. However, unless there is a specific IAM policy attached " ++
  "to the user, they will not need to provide a second factor of authentication when " ++
  "making API calls.\n\nThe following administrative IAM Users have at least one set of " ++
  "access keys, and can call sensitive actions to alter permissions or add users " ++
  "without using a second factor of authentication:\n\n"

/-- The Finding appended by `gen_mfa_actions_findings` (find_risks.py lines 160-169). -/
def mfa_finding (affected_users : List Node) : Finding :=
  { title := "Administrative IAM " ++
      (if 1 < affected_users.length then "Users" else "User") ++
      " Can Call Sensitive Actions Without MFA",
    severity := "Medium",
    impact := "An adminstrative IAM User is able to call sensitive actions, such " ++
      "as creating more principals or modifying permissions, without using MFA.",
    description := mfa_preamble ++ bullet_body affected_users,
    recommendation := "Implement and attach an IAM Policy to the noted user(s) " ++
      "that rejects requests when MFA is not used." }

/-- find_risks.py lines 133-171: `gen_mfa_actions_findings`. -/
def gen_mfa_actions_findings (g : Graph) : List Finding :=
  let affected_users := mfa_affected_users g
  if 0 < affected_users.length then [mfa_finding affected_users] else []

/-- find_risks.py lines 192-194: the `affected_roles` of
`gen_overprivileged_instance_profile_findings` — admin roles with an associated
instance profile. -/
def instance_profile_affected_roles (g : Graph) : List Node :=
  g.nodes.filter (fun node =>
    strIn ":role/" node.arn && node.is_admin && node.instance_profile.isSome)

/-- The description preamble of the instance-profile finding (find_risks.py
lines 197-202). -/
def instance_profile_preamble : String :=
  "In AWS, EC2 instances can be given an instance profile. These instance profiles " ++
  "are associated with an IAM Role, and grants access to the permissions of the IAM " ++
  "Role. Because EC2 instances are at a higher risk of exposure and compromise, both " ++
  "to external attackers and authorized users in the AWS account, they should not have " ++
  "access to administrative privileges. The following IAM Roles have administrative " ++
  "permissions and are associated with an instance profile:\n\n"

/-- The Finding appended by `gen_overprivileged_instance_profile_findings`
(find_risks.py lines 208-217). -/
def instance_profile_finding (affected_roles : List Node) : Finding :=
  { title := "Instance " ++
      (if 1 < affected_roles.length then "Profiles Have" else "Profile Has") ++
      " Administrator Privileges",
    severity := "High",
    impact := "If an instance with the noted instance profile(s) is compromised, " ++
      "then the AWS account as a whole is at risk of compromise.",
    description := instance_profile_preamble ++ bullet_body affected_roles,
    recommendation := "Reduce the scope of permissions attached to the noted " ++
      "instance profile(s)." }

/-- find_risks.py lines 188-219: `gen_overprivileged_instance_profile_findings`. -/
def gen_overprivileged_instance_profile_findings (g : Graph) : List Finding :=
  let affected_roles := instance_profile_affected_roles g
  if 0 < affected_roles.length then [instance_profile_finding affected_roles] else []

/-- find_risks.py lines 226-231: the `affected_roles` of
`gen_overprivileged_function_findings` — admin roles whose trust policy yields
SERVICE_MATCH for the Lambda service principal on sts:AssumeRole. -/
def lambda_affected_roles (g : Graph) : List Node :=
  g.nodes.filter (fun node =>
    strIn ":role/" node.arn && node.is_admin
      && decide (resource_policy_authorization "lambda.amazonaws.com"
           (get_account_id node.arn) node.trust_policy "sts:AssumeRole" node.arn [] false
           = ResourcePolicyEvalResult.SERVICE_MATCH))

/-- The description preamble of the Lambda finding (find_risks.py lines 234-239). -/
def lambda_preamble : String :=
  "In AWS, Lambda functions can be assigned an IAM Role to use during execution. These " ++
  "IAM Roles give the function access to call the AWS API with the permissions of the " ++
  "IAM Role, depending on the policies attached to it. If the Lambda function can be " ++
  "compromised, and the attacker can alter the code it executes, the attacker could " ++
  "make AWS API calls with the IAM Role\x27s permissions. The following IAM Roles have " ++
  "administrative privileges, and can be passed to Lambda functions:\n\n"

/-- The Finding appended by `gen_overprivileged_function_findings` (find_risks.py
lines 245-253). -/
def lambda_finding (affected_roles : List Node) : Finding :=
  { title := if 1 < affected_roles.length then
      "IAM Roles Available to Lambda Functions Have Administrative Privileges"
    else
      "IAM Role Available to Lambda Functions Has Administrative Privileges",
    severity := "Medium",
    impact := "If an attacker can inject code or commands into the function, or if " ++
      "a lower-privileged principal can alter the function, the AWS account as a " ++
      "whole could be compromised.",
    description := lambda_preamble ++ bullet_body affected_roles,
    recommendation := "Reduce the scope of permissions attached to the noted IAM " ++
      "Role(s)." }

/-- find_risks.py lines 222-255: `gen_overprivileged_function_findings`. -/
def gen_overprivileged_function_findings (g : Graph) : List Finding :=
  let affected_roles := lambda_affected_roles g
  if 0 < affected_roles.length then [lambda_finding affected_roles] else []

/-- find_risks.py lines 262-268: the `affected_roles` of
`gen_overprivileged_stack_findings` — admin roles whose trust policy yields
SERVICE_MATCH for the CloudFormation service principal on sts:AssumeRole. -/
def cloudformation_affected_roles (g : Graph) : List Node :=
  g.nodes.filter (fun node =>
    strIn ":role/" node.arn && node.is_admin
      && decide (resource_policy_authorization "cloudformation.amazonaws.com"
           (get_account_id node.arn) node.trust_policy "sts:AssumeRole" node.arn [] false
           = ResourcePolicyEvalResult.SERVICE_MATCH))

/-- The description preamble of the CloudFormation finding (find_risks.py
lines 271-277). -/
def cloudformation_preamble : String :=
  "In AWS, CloudFormation stacks can be given an IAM Role. When a stack has an IAM " ++
  "Role, it can use that IAM Role to make AWS API calls to create the resources " ++
  "defined in the template for that stack. If the IAM Role has administrator access " ++
  "to the account, and an attacker is able to make the right CloudFormation API calls, " ++
  "they would be able to use the IAM Role to escalate privileges and compromise the " ++
  "account as a whole. The following IAM Roles can be used in CloudFormation and " ++
  "have administrative privileges:\n\n"

/-- The Finding appended by `gen_overprivileged_stack_findings` (find_risks.py
lines 283-291). -/
def cloudformation_finding (affected_roles : List Node) : Finding :=
  { title := if 1 < affected_roles.length then
      "IAM Roles Available to CloudFormation Stacks Have Administrative Privileges"
    else
      "IAM Role Available to CloudFormation Stacks Has Administrative Privileges",
    severity := "Low",
    impact := "If an attacker has the right permissions in the AWS Account, they " ++
      "can grant themselves adminstrative access to the account to compromise the " ++
      "account.",
    description := cloudformation_preamble ++ bullet_body affected_roles,
    recommendation := "Reduce the scope of permissions attached to the noted IAM " ++
      "Role(s)." }

/-- find_risks.py lines 258-293: `gen_overprivileged_stack_findings`. -/
def gen_overprivileged_stack_findings (g : Graph) : List Finding :=
  let affected_roles := cloudformation_affected_roles g
  if 0 < affected_roles.length then [cloudformation_finding affected_roles] else []

/-- find_risks.py lines 97-102: the `node_path_list` of `gen_privesc_findings` — every
node for which `can_privesc` reports an escalation, paired with its edge list. -/
def node_path_list (cp : CanPrivesc) (g : Graph) : List (Node × List Edge) :=
  g.nodes.filterMap (fun n => if (cp g n).1 then some (n, (cp g n).2) else none)

/-- find_risks.py lines 113-114: the per-node header line of the privilege-escalation
description, naming the destination of the last edge of the escalation path. -/
def privesc_line (n : Node) (end_of_list : Edge) : String :=
  "* " ++ n.searchable_name ++
    " can escalate privileges by accessing the administrative principal " ++
    end_of_list.destination.searchable_name ++ ":\n"

/-- find_risks.py lines 115-116: the edge bullet lines accumulated by `+=`. -/
def privesc_edge_lines (el : List Edge) : String :=
  el.foldl (fun acc e => acc ++ "   * " ++ e.describe_edge ++ "\n") ""

/-- The text appended to `description_body` for one entry of `node_path_list`
(find_risks.py lines 112-117), regrouped by associativity of string append: header
line, edge lines, trailing blank line. `end_of_list` is `edge_list[-1]`. -/
def privesc_block (p : Node × List Edge) (end_of_list : Edge) : String :=
  privesc_line p.1 end_of_list ++ privesc_edge_lines p.2 ++ "\n"

/-- find_risks.py lines 110-117: the loop accumulating `description_body` over
`node_path_list`, starting from the accumulator `init`; `edge_list[-1]` on an empty
list raises IndexError. -/
def privesc_body_from (init : String) :
    List (Node × List Edge) → Except PyErr String
  | [] => Except.ok init
  | p :: rest =>
    match p.2.getLast? with
    | some e => privesc_body_from (init ++ privesc_block p e) rest
    | none => Except.error PyErr.indexError

/-- find_risks.py lines 110-117: `description_body` accumulated over `node_path_list`
starting from the empty string. -/
def privesc_body (l : List (Node × List Edge)) : Except PyErr String :=
  privesc_body_from "" l

/-- The description preamble of the privilege-escalation finding (find_risks.py
lines 105-108). -/
def privesc_preamble : String :=
  "In AWS, IAM Principals such as IAM Users or IAM Roles have their permissions defined " ++
  "using IAM Policies. These policies describe different actions, resources, and " ++
  "conditions where the principal can make a given API call to a service.\n\n" ++
  "The following principals could escalate privileges:\n\n"

/-- The Finding appended by `gen_privesc_findings` (find_risks.py lines 119-128);
`body` is the accumulated `description_body`. -/
def privesc_finding (npl : List (Node × List Edge)) (body : String) : Finding :=
  { title := "IAM " ++ (if 1 < npl.length then "Principals" else "Principal") ++
      " Can Escalate Privileges",
    severity := "High",
    impact := "A lower-privilege IAM User or Role is able to gain " ++
      "administrative privileges. This could lead to the lower-privilege " ++
      "principal being used to compromise the account\x27s resources.",
    description := privesc_preamble ++ body,
    recommendation := "Review the IAM Policies that are applicable to the " ++
      "affected IAM User(s) or Role(s). Either reduce the permissions of the " ++
      "administrative principal(s), or reduce the permissions of the " ++
      "principal(s) that can access the administrative principals." }

/-- find_risks.py lines 93-130: `gen_privesc_findings`. -/
def gen_privesc_findings (cp : CanPrivesc) (g : Graph) : Except PyErr (List Finding) :=
  let npl := node_path_list cp g
  if 0 < npl.length then
    match privesc_body npl with
    | Except.error e => Except.error e
    | Except.ok body => Except.ok [privesc_finding npl body]
  else Except.ok []

/-- find_risks.py lines 81-90: `gen_all_findings` — concatenates the five generators in
source order: privesc, MFA actions, overprivileged function, overprivileged instance
profile, overprivileged stack. -/
def gen_all_findings (cp : CanPrivesc) (g : Graph) : Except PyErr (List Finding) :=
  match gen_privesc_findings cp g with
  | Except.error e => Except.error e
  | Except.ok r1 =>
    Except.ok (r1 ++ gen_mfa_actions_findings g
      ++ gen_overprivileged_function_findings g
      ++ gen_overprivileged_instance_profile_findings g
      ++ gen_overprivileged_stack_findings g)

/-- The attribution string of the report (find_risks.py lines 75-77). -/
def report_source_text : String :=
  "Findings identified using Principal Mapper (" ++ pmapper_version ++
    ") from NCC Group: https://github.com/nccgroup/PMapper"

/-- find_risks.py lines 68-78: `gen_report`. The current UTC time is an explicit `now`
parameter. -/
def gen_report (cp : CanPrivesc) (g : Graph) (now : Nat) : Except PyErr Report :=
  match gen_all_findings cp g with
  | Except.error e => Except.error e
  | Except.ok findings =>
    Except.ok { account := g.metadata.account_id, date_and_time := now,
                findings := findings, source := report_source_text }

/-- State-passing embedding of `gen_report` for the frame property: the graph is a
Python object reference; the translation threads it through the call and returns the
final graph state alongside the report. No statement of find_risks.py assigns to the
graph, its nodes or its metadata, so the final state is the argument itself. -/
def gen_report_st (cp : CanPrivesc) (g : Graph) (now : Nat) :
    Except PyErr (Report × Graph) :=
  match gen_all_findings cp g with
  | Except.error e => Except.error e
  | Except.ok findings =>
    Except.ok ({ account := g.metadata.account_id, date_and_time := now,
                 findings := findings, source := report_source_text }, g)

/-! ### find_risks.py — gen_findings_to_file

find_risks.py line 58 evaluates `os.curdir()`: `os.curdir` is the plain string `"."`,
not a callable, so the call raises TypeError before any file is opened or written. -/

/-- A Python value that is either a plain string or a callable returning a string. -/
inductive PyVal
  | str (s : String)
  | pyfunc (f : Unit → String)

/-- `os.curdir`: the constant string `"."`. -/
def os_curdir : PyVal := PyVal.str "."

/-- Calling a Python value with no arguments: only callables succeed; calling a string
raises TypeError. -/
def pyCall0 (v : PyVal) : Except PyErr String :=
  match v with
  | PyVal.pyfunc f => Except.ok (f ())
  | PyVal.str _ => Except.error PyErr.typeError

/-- find_risks.py lines 52-66: `gen_findings_to_file`, with its external collaborators
as parameters: `as_dict` for `Report.as_dictionary`, `dumps` for `json.dumps`,
`abspath` for `os.path.abspath`, `isfile` for `os.path.isfile`. Returns the outcome
together with the list of (path, content) file writes performed. -/
def gen_findings_to_file (cp : CanPrivesc) (as_dict : Report → String)
    (dumps : String → String) (abspath : String → String) (isfile : String → Bool)
    (g : Graph) (now : Nat) (formatting : String) (file : String) :
    Except PyErr Unit × List (String × String) :=
  match gen_report cp g now with
  | Except.error e => (Except.error e, [])
  | Except.ok report =>
    let content := as_dict report
    match pyCall0 os_curdir with
    | Except.error e => (Except.error e, [])
    | Except.ok curdir =>
      let path0 := abspath (curdir ++ file)
      let path := if isfile path0 then path0 else "/dev/null"
      let out := if formatting == "json" then dumps content else content
      (Except.ok (), [(path, out)])

/-! ### boto_tools.py — get_session

boto_tools.py lines 23-41: in the `profile_arg is not None` branch the local name
`stsclient` is never bound, so line 40 (`stsclient.get_caller_identity()`) raises
UnboundLocalError, a subclass of NameError. -/

/-- A boto3 session value, distinguished by how it was constructed. -/
inductive Session
  | fromProfile (profile_name : String)
  | fromToken (token : String)
  | fromEnv
deriving DecidableEq, Repr

/-- An STS client value: the module-level `boto3.client` or a client of a session. -/
inductive StsClient
  | globalClient
  | fromSession (s : Session)
deriving DecidableEq, Repr

/-- The external boto3 behavior: the assume-role API call (arguments RoleArn and
RoleSessionName) and `get_caller_identity`, each of which may raise. Session and
client construction are modelled as pure constructors. -/
structure BotoEnv where
  assume_role_api : String → String → Except PyErr String
  caller_identity : StsClient → Except PyErr Unit

/-- boto_tools.py lines 23-41: `get_session`. The locals `result` and `stsclient` after
the if/elif/else are modelled explicitly; `stsclient` is `none` exactly when the Python
local is unbound, and reading an unbound local raises NameError (UnboundLocalError). -/
def get_session (env : BotoEnv) (profile_arg role_arg : Option String) :
    Except PyErr Session :=
  let branch : Except PyErr (Session × Option StsClient) :=
    match profile_arg with
    | some p =>
      -- result = boto3.session.Session(profile_name=profile_arg); stsclient unbound
      Except.ok (Session.fromProfile p, none)
    | none =>
      match role_arg with
      | some r =>
        -- stsclient = boto3.client of sts; token = stsclient.assume_role(...)
        let stsclient := StsClient.globalClient
        match env.assume_role_api r "PMapper" with
        | Except.error e => Except.error e
        | Except.ok token => Except.ok (Session.fromToken token, some stsclient)
      | none =>
        -- result = boto3.session.Session(); stsclient = result.client of sts
        let result := Session.fromEnv
        Except.ok (result, some (StsClient.fromSession result))
  match branch with
  | Except.error e => Except.error e
  | Except.ok (result, stsclient) =>
    match stsclient with
    | none => Except.error PyErr.nameError
    | some c =>
      match env.caller_identity c with
      | Except.error e => Except.error e
      | Except.ok _ => Except.ok result

/-! ### Auxiliary definitions used by the theorems -/

/-- The block contributed to `description_body` by one entry of `node_path_list`, with
the partial `edge_list[-1]` access totalized through `getLast?` (empty escalation lists
contribute the empty string; they cannot occur when `privesc_body` succeeds). -/
def privesc_blockD (p : Node × List Edge) : String :=
  match p.2.getLast? with
  | some e => privesc_block p e
  | none => ""

/-! ### Concrete fixtures for witnesses -/

/-- A statement allowing every action on every resource. -/
def allow_all_stmt : Statement :=
  { effect := Effect.Allow, actions := ["*"], resources := ["*"], conditions := [],
    principals := [] }

/-- A statement denying every action on every resource. -/
def deny_all_stmt : Statement :=
  { effect := Effect.Deny, actions := ["*"], resources := ["*"], conditions := [],
    principals := [] }

/-- A policy allowing everything. -/
def allow_all_policy : PolicyDoc := { statements := [allow_all_stmt] }

/-- The statement of the fixture trust policy: the Lambda service principal may call
sts:AssumeRole. -/
def lambda_trust_stmt : Statement :=
  { effect := Effect.Allow, actions := ["sts:AssumeRole"], resources := ["*"],
    conditions := [], principals := [PrincipalSpec.service "lambda.amazonaws.com"] }

/-- A trust policy naming the Lambda service principal for sts:AssumeRole. -/
def lambda_trust_policy : PolicyDoc := { statements := [lambda_trust_stmt] }

/-- A fixture: an administrative IAM user with access keys and full permissions. -/
def user_alice : Node :=
  { arn := "arn:aws:iam::000000000000:user/alice",
    identityPolicies := [allow_all_policy], groupPolicies := [],
    permissionBoundary := none, trust_policy := none, is_admin := true,
    access_keys := 2, instance_profile := none }

/-- A fixture: an administrative role trusted by Lambda and bound to an instance
profile. -/
def role_lam : Node :=
  { arn := "arn:aws:iam::000000000000:role/lamrole",
    identityPolicies := [allow_all_policy], groupPolicies := [],
    permissionBoundary := none, trust_policy := some lambda_trust_policy,
    is_admin := true, access_keys := 0, instance_profile := some "ip-1" }

/-- A fixture: a user whose policies contain an explicit deny ahead of an allow. -/
def user_bob : Node :=
  { arn := "arn:aws:iam::000000000000:user/bob",
    identityPolicies := [{ statements := [deny_all_stmt] }, allow_all_policy],
    groupPolicies := [], permissionBoundary := none, trust_policy := none,
    is_admin := false, access_keys := 1, instance_profile := none }

/-- A fixture: a user with no policies at all. -/
def user_empty : Node :=
  { arn := "arn:aws:iam::000000000000:user/nobody",
    identityPolicies := [], groupPolicies := [], permissionBoundary := none,
    trust_policy := none, is_admin := false, access_keys := 0,
    instance_profile := none }

/-- A fixture graph holding the user and role fixtures. -/
def graphW : Graph :=
  { nodes := [user_alice, role_lam], edges := [],
    metadata := { account_id := "000000000000", collection_time := 0 } }

/-- A fixture escalation edge from the user to the role. -/
def edgeW : Edge :=
  { source := user_alice, destination := role_lam, reason := "can attach a policy to" }

/-- A fixture `can_privesc` oracle: the user escalates through `edgeW`. -/
def cpW : CanPrivesc :=
  fun _ n =>
    if n.arn == "arn:aws:iam::000000000000:user/alice" then (true, [edgeW])
    else (false, [])

/-- A fixture `can_privesc` oracle reporting no escalation anywhere. -/
def cpNone : CanPrivesc := fun _ _ => (false, [])

/-- A fixture graph with no nodes. -/
def graphE : Graph :=
  { nodes := [], edges := [],
    metadata := { account_id := "111122223333", collection_time := 5 } }

/-! ### Helper lemmas -/

theorem strIn_iff (a b : String) : strIn a b = true ↔ a.data <:+: b.data := by
  simp [strIn]

theorem data_foldl_append {α : Type} (f : α → String) (l : List α) (init : String) :
    (l.foldl (fun acc x => acc ++ f x) init).data
      = init.data ++ (l.map (fun x => (f x).data)).flatten := by
  induction l generalizing init with
  | nil => simp
  | cons x l ih =>
      simp [List.foldl_cons, ih, String.data_append, List.append_assoc]

theorem strIn_of_prefix_mem {α : Type} (f : α → String) (l : List α) (x : α)
    (a pre : String) (hx : x ∈ l) (hpre : a.data <+: (f x).data) :
    strIn a (pre ++ l.foldl (fun acc y => acc ++ f y) "") = true := by
  rw [strIn_iff, String.data_append, data_foldl_append]
  have hnil : "".data = ([] : List Char) := rfl
  rw [hnil, List.nil_append]
  have h1 : (f x).data ∈ l.map (fun y => (f y).data) := List.mem_map_of_mem _ hx
  have h2 : a.data <:+: (l.map (fun y => (f y).data)).flatten :=
    hpre.isInfix.trans (List.infix_of_mem_flatten h1)
  exact h2.trans (List.suffix_append pre.data _).isInfix

theorem can_call_iff (node : Node) (actions : List String) :
    _can_call_without_mfa node actions = true ↔
      ∃ a ∈ actions,
        local_check_authorization_handling_mfa node a "*" [] = (true, false) := by
  rw [_can_call_without_mfa, List.any_eq_true]
  constructor
  · rintro ⟨a, ha, hp⟩
    refine ⟨a, ha, ?_⟩
    rcases hr : local_check_authorization_handling_mfa node a "*" [] with ⟨b1, b2⟩
    simp only [hr] at hp
    cases b1 <;> cases b2 <;> simp_all
  · rintro ⟨a, ha, hp⟩
    exact ⟨a, ha, by simp [hp]⟩

theorem mem_mfa_affected_users (g : Graph) (n : Node) :
    n ∈ mfa_affected_users g ↔
      (n ∈ g.nodes ∧ strIn ":user/" n.arn = true ∧ n.is_admin = true
        ∧ 0 < n.access_keys
        ∧ _can_call_without_mfa n mfa_sensitive_actions = true) := by
  rw [mfa_affected_users, List.mem_filter]
  simp [Bool.and_eq_true, and_assoc]

theorem mem_lambda_affected_roles (g : Graph) (n : Node) :
    n ∈ lambda_affected_roles g ↔
      (n ∈ g.nodes ∧ strIn ":role/" n.arn = true ∧ n.is_admin = true
        ∧ resource_policy_authorization "lambda.amazonaws.com" (get_account_id n.arn)
            n.trust_policy "sts:AssumeRole" n.arn [] false
          = ResourcePolicyEvalResult.SERVICE_MATCH) := by
  rw [lambda_affected_roles, List.mem_filter]
  simp [Bool.and_eq_true, and_assoc]

theorem mem_cloudformation_affected_roles (g : Graph) (n : Node) :
    n ∈ cloudformation_affected_roles g ↔
      (n ∈ g.nodes ∧ strIn ":role/" n.arn = true ∧ n.is_admin = true
        ∧ resource_policy_authorization "cloudformation.amazonaws.com"
            (get_account_id n.arn) n.trust_policy "sts:AssumeRole" n.arn [] false
          = ResourcePolicyEvalResult.SERVICE_MATCH) := by
  rw [cloudformation_affected_roles, List.mem_filter]
  simp [Bool.and_eq_true, and_assoc]

theorem mem_instance_profile_affected_roles (g : Graph) (n : Node) :
    n ∈ instance_profile_affected_roles g ↔
      (n ∈ g.nodes ∧ strIn ":role/" n.arn = true ∧ n.is_admin = true
        ∧ n.instance_profile ≠ none) := by
  rw [instance_profile_affected_roles, List.mem_filter]
  simp [Bool.and_eq_true, and_assoc, Option.isSome_iff_ne_none]

theorem privesc_body_from_eq (l : List (Node × List Edge)) (h : ∀ p ∈ l, p.2 ≠ [])
    (init : String) :
    privesc_body_from init l
      = Except.ok (l.foldl (fun acc p => acc ++ privesc_blockD p) init) := by
  induction l generalizing init with
  | nil => rfl
  | cons p l ih =>
    have hp : p.2 ≠ [] := h p (List.mem_cons_self p l)
    have h' : ∀ q ∈ l, q.2 ≠ [] := fun q hq => h q (List.mem_cons_of_mem p hq)
    cases hl : p.2.getLast? with
    | none => exact absurd (List.getLast?_eq_none_iff.mp hl) hp
    | some e =>
      simp only [privesc_body_from, hl, List.foldl_cons, privesc_blockD]
      exact ih h' _

theorem privesc_paths_nonempty (cp : CanPrivesc) (g : Graph)
    (h : ∀ n ∈ g.nodes, (cp g n).1 = true → (cp g n).2 ≠ []) :
    ∀ p ∈ node_path_list cp g, p.2 ≠ [] := by
  intro p hp
  rw [node_path_list, List.mem_filterMap] at hp
  obtain ⟨n, hn, hfn⟩ := hp
  by_cases hc : (cp g n).1 = true
  · rw [if_pos hc] at hfn
    cases hfn
    exact h n hn hc
  · rw [if_neg hc] at hfn
    cases hfn

theorem gen_privesc_findings_ok (cp : CanPrivesc) (g : Graph)
    (h : ∀ n ∈ g.nodes, (cp g n).1 = true → (cp g n).2 ≠ []) :
    ∃ l, gen_privesc_findings cp g = Except.ok l := by
  have hbody := privesc_body_from_eq _ (privesc_paths_nonempty cp g h) ""
  by_cases hlen : 0 < (node_path_list cp g).length
  · exact ⟨[privesc_finding (node_path_list cp g)
      ((node_path_list cp g).foldl (fun acc p => acc ++ privesc_blockD p) "")],
      by rw [gen_privesc_findings]; simp [hlen, privesc_body, hbody]⟩
  · exact ⟨[], by rw [gen_privesc_findings]; simp [hlen]⟩

/-! ### Claim theorems -/

/-- C2: whenever some applicable statement is an explicit Deny whose action and resource
patterns match and whose conditions are satisfied, the identity evaluation results in
ExplicitDeny and `local_check_authorization_handling_mfa` never reports the request as
authorized — an explicit deny dominates every allow. -/
theorem deny_always_wins (n : Node) (action resource : String) (ctx : Context)
    (h : ∃ s ∈ applicable_statements n, s.effect = Effect.Deny
      ∧ matches_action s action = true ∧ matches_resource s resource = true
      ∧ ∀ c ∈ s.conditions, cond_satisfied ctx c = true) :
    (evaluate_identity n action resource ctx).decision = Decision.explicitDeny
    ∧ (local_check_authorization_handling_mfa n action resource ctx).1 = false := by
  obtain ⟨s, hmem, heff, ha, hr, hc⟩ := h
  have hdeny : deny_matches s action resource ctx = true := by
    simp only [deny_matches, heff, ha, hr, decide_True, Bool.true_and, Bool.and_true,
      List.all_eq_true]
    exact hc
  have hany : (applicable_statements n).any
      (fun s => deny_matches s action resource ctx) = true :=
    List.any_eq_true.mpr ⟨s, hmem, hdeny⟩
  refine ⟨?_, ?_⟩
  · simp [evaluate_identity, hany]
  · simp [local_check_authorization_handling_mfa, evaluate_identity, hany]

/-- Witness for C2 at a concrete principal carrying an applicable explicit deny. -/
theorem deny_always_wins_witness :
    (evaluate_identity user_bob "iam:CreateUser" "*" []).decision = Decision.explicitDeny
    ∧ (local_check_authorization_handling_mfa user_bob "iam:CreateUser" "*" []).1
        = false :=
  deny_always_wins user_bob "iam:CreateUser" "*" []
    ⟨deny_all_stmt, by decide, by decide, by decide, by decide, by decide⟩

/-- C6: a not-authorized outcome is a normal value — `_can_call_without_mfa` is a total
boolean function, and it returns false whenever no action of the list is authorized
without MFA. -/
theorem can_call_without_mfa_false (node : Node) (actions : List String)
    (h : ∀ a ∈ actions,
      local_check_authorization_handling_mfa node a "*" [] ≠ (true, false)) :
    _can_call_without_mfa node actions = false := by
  rw [_can_call_without_mfa, List.any_eq_false]
  intro a ha
  have hne := h a ha
  rcases hr : local_check_authorization_handling_mfa node a "*" [] with ⟨b1, b2⟩
  rw [hr] at hne
  cases b1 <;> cases b2 <;> simp_all

/-- Witness for C6: a principal with no policies is authorized for nothing, and the
check returns false. -/
theorem can_call_without_mfa_false_witness :
    (∀ a ∈ mfa_sensitive_actions,
      local_check_authorization_handling_mfa user_empty a "*" [] ≠ (true, false))
    ∧ _can_call_without_mfa user_empty mfa_sensitive_actions = false :=
  ⟨by decide,
   can_call_without_mfa_false user_empty mfa_sensitive_actions (by decide)⟩

/-- C9: `get_session` raises NameError (UnboundLocalError) for every call in which
`profile_arg` is not None: the local `stsclient` is unbound in that branch, so a session
selected by a profile argument is never returned. -/
theorem get_session_profile_raises (env : BotoEnv) (p : String)
    (role_arg : Option String) :
    get_session env (some p) role_arg = Except.error PyErr.nameError := rfl

/-- C1: `gen_mfa_actions_findings` reports exactly those nodes whose ARN contains
`:user/`, whose is_admin flag is true, whose access-key count is positive, and for
which some of the ten sensitive actions is authorized on resource `*` under the empty
context with the needs-MFA flag false; a non-empty set yields a single Medium finding
listing the nodes, an empty set yields the empty list. -/
theorem mfa_actions_findings_spec (g : Graph) :
    (∀ n, n ∈ mfa_affected_users g ↔
      (n ∈ g.nodes ∧ strIn ":user/" n.arn = true ∧ n.is_admin = true
        ∧ 0 < n.access_keys
        ∧ ∃ a ∈ mfa_sensitive_actions,
            local_check_authorization_handling_mfa n a "*" [] = (true, false)))
    ∧ (mfa_affected_users g = [] → gen_mfa_actions_findings g = [])
    ∧ (mfa_affected_users g ≠ [] →
        ∃ f, gen_mfa_actions_findings g = [f] ∧ f.severity = "Medium"
          ∧ ∀ n ∈ mfa_affected_users g, strIn (bullet_line n) f.description = true) := by
  refine ⟨?_, ?_, ?_⟩
  · intro n
    rw [mem_mfa_affected_users, can_call_iff]
  · intro h
    simp [gen_mfa_actions_findings, h]
  · intro h
    have hlen : 0 < (mfa_affected_users g).length := List.length_pos.mpr h
    refine ⟨mfa_finding (mfa_affected_users g), ?_, rfl, ?_⟩
    · simp [gen_mfa_actions_findings, hlen]
    · intro n hn
      show strIn (bullet_line n)
        (mfa_preamble ++ bullet_body (mfa_affected_users g)) = true
      rw [bullet_body]
      exact strIn_of_prefix_mem bullet_line _ n _ _ hn List.prefix_rfl

/-- Witness for C1: the fixture graph holds an administrative user with access keys
authorized for the sensitive actions without MFA, and the generator returns a single
Medium finding. -/
theorem mfa_actions_findings_witness :
    ∃ f, gen_mfa_actions_findings graphW = [f] ∧ f.severity = "Medium"
      ∧ ∀ n ∈ mfa_affected_users graphW, strIn (bullet_line n) f.description = true :=
  (mfa_actions_findings_spec graphW).2.2 (by decide)

/-- C3: `gen_overprivileged_function_findings` (resp.
`gen_overprivileged_stack_findings`) lists a node exactly when its ARN contains
`:role/`, its is_admin flag is true, and resource-policy evaluation of its trust policy
for the Lambda (resp. CloudFormation) service principal on sts:AssumeRole under the
empty context returns SERVICE_MATCH; every other evaluation result excludes the role. -/
theorem overprivileged_function_stack_spec (g : Graph) :
    (∀ n, n ∈ lambda_affected_roles g ↔
      (n ∈ g.nodes ∧ strIn ":role/" n.arn = true ∧ n.is_admin = true
        ∧ resource_policy_authorization "lambda.amazonaws.com" (get_account_id n.arn)
            n.trust_policy "sts:AssumeRole" n.arn [] false
          = ResourcePolicyEvalResult.SERVICE_MATCH))
    ∧ (∀ n, n ∈ cloudformation_affected_roles g ↔
      (n ∈ g.nodes ∧ strIn ":role/" n.arn = true ∧ n.is_admin = true
        ∧ resource_policy_authorization "cloudformation.amazonaws.com"
            (get_account_id n.arn) n.trust_policy "sts:AssumeRole" n.arn [] false
          = ResourcePolicyEvalResult.SERVICE_MATCH))
    ∧ (lambda_affected_roles g = [] → gen_overprivileged_function_findings g = [])
    ∧ (lambda_affected_roles g ≠ [] →
        ∃ f, gen_overprivileged_function_findings g = [f]
          ∧ ∀ n ∈ lambda_affected_roles g, strIn (bullet_line n) f.description = true)
    ∧ (cloudformation_affected_roles g = [] → gen_overprivileged_stack_findings g = [])
    ∧ (cloudformation_affected_roles g ≠ [] →
        ∃ f, gen_overprivileged_stack_findings g = [f]
          ∧ ∀ n ∈ cloudformation_affected_roles g,
              strIn (bullet_line n) f.description = true) := by
  refine ⟨mem_lambda_affected_roles g, mem_cloudformation_affected_roles g,
    ?_, ?_, ?_, ?_⟩
  · intro h
    simp [gen_overprivileged_function_findings, h]
  · intro h
    have hlen : 0 < (lambda_affected_roles g).length := List.length_pos.mpr h
    refine ⟨lambda_finding (lambda_affected_roles g), ?_, ?_⟩
    · simp [gen_overprivileged_function_findings, hlen]
    · intro n hn
      show strIn (bullet_line n)
        (lambda_preamble ++ bullet_body (lambda_affected_roles g)) = true
      rw [bullet_body]
      exact strIn_of_prefix_mem bullet_line _ n _ _ hn List.prefix_rfl
  · intro h
    simp [gen_overprivileged_stack_findings, h]
  · intro h
    have hlen : 0 < (cloudformation_affected_roles g).length := List.length_pos.mpr h
    refine ⟨cloudformation_finding (cloudformation_affected_roles g), ?_, ?_⟩
    · simp [gen_overprivileged_stack_findings, hlen]
    · intro n hn
      show strIn (bullet_line n)
        (cloudformation_preamble ++ bullet_body (cloudformation_affected_roles g)) = true
      rw [bullet_body]
      exact strIn_of_prefix_mem bullet_line _ n _ _ hn List.prefix_rfl

/-- Witness for C3: the fixture graph holds an administrative role whose trust policy
yields SERVICE_MATCH for the Lambda service principal, and the generator returns a
single finding listing it. -/
theorem overprivileged_function_stack_witness :
    ∃ f, gen_overprivileged_function_findings graphW = [f]
      ∧ ∀ n ∈ lambda_affected_roles graphW, strIn (bullet_line n) f.description = true :=
  (overprivileged_function_stack_spec graphW).2.2.2.1 (by decide)

/-- C5: `gen_overprivileged_instance_profile_findings` lists a node exactly when its
ARN contains `:role/`, its is_admin flag is true, and its instance-profile association
is present; a non-empty set yields a single High finding, an empty set the empty
list. -/
theorem overprivileged_instance_profile_spec (g : Graph) :
    (∀ n, n ∈ instance_profile_affected_roles g ↔
      (n ∈ g.nodes ∧ strIn ":role/" n.arn = true ∧ n.is_admin = true
        ∧ n.instance_profile ≠ none))
    ∧ (instance_profile_affected_roles g = [] →
        gen_overprivileged_instance_profile_findings g = [])
    ∧ (instance_profile_affected_roles g ≠ [] →
        ∃ f, gen_overprivileged_instance_profile_findings g = [f]
          ∧ f.severity = "High"
          ∧ ∀ n ∈ instance_profile_affected_roles g,
              strIn (bullet_line n) f.description = true) := by
  refine ⟨mem_instance_profile_affected_roles g, ?_, ?_⟩
  · intro h
    simp [gen_overprivileged_instance_profile_findings, h]
  · intro h
    have hlen : 0 < (instance_profile_affected_roles g).length := List.length_pos.mpr h
    refine ⟨instance_profile_finding (instance_profile_affected_roles g), ?_, rfl, ?_⟩
    · simp [gen_overprivileged_instance_profile_findings, hlen]
    · intro n hn
      show strIn (bullet_line n)
        (instance_profile_preamble
          ++ bullet_body (instance_profile_affected_roles g)) = true
      rw [bullet_body]
      exact strIn_of_prefix_mem bullet_line _ n _ _ hn List.prefix_rfl

/-- Witness for C5: the fixture graph holds an administrative role bound to an instance
profile, and the generator returns a single High finding. -/
theorem overprivileged_instance_profile_witness :
    ∃ f, gen_overprivileged_instance_profile_findings graphW = [f]
      ∧ f.severity = "High"
      ∧ ∀ n ∈ instance_profile_affected_roles graphW,
          strIn (bullet_line n) f.description = true :=
  (overprivileged_instance_profile_spec graphW).2.2 (by decide)

/-- C4: when no node can escalate privileges according to `can_privesc`,
`gen_privesc_findings` returns the empty list; when at least one node can, it returns
exactly one High finding, whose description names, for each escalating node, the
destination of the last edge of its escalation path as the administrative principal
reached. The hypothesis states that the external `can_privesc` returns a non-empty
path whenever it reports an escalation (otherwise the source raises IndexError at
`edge_list[-1]`). -/
theorem privesc_findings_spec (cp : CanPrivesc) (g : Graph)
    (h : ∀ n ∈ g.nodes, (cp g n).1 = true → (cp g n).2 ≠ []) :
    ((∀ n ∈ g.nodes, (cp g n).1 = false) → gen_privesc_findings cp g = Except.ok [])
    ∧ (∀ n ∈ g.nodes, (cp g n).1 = true →
        ∃ f, gen_privesc_findings cp g = Except.ok [f] ∧ f.severity = "High"
          ∧ ∀ m el e, m ∈ g.nodes → cp g m = (true, el) → el.getLast? = some e →
              strIn (privesc_line m e) f.description = true) := by
  have hnp : ∀ p ∈ node_path_list cp g, p.2 ≠ [] := by
    intro p hp
    rw [node_path_list, List.mem_filterMap] at hp
    obtain ⟨n, hn, hfn⟩ := hp
    by_cases hc : (cp g n).1 = true
    · rw [if_pos hc] at hfn
      cases hfn
      exact h n hn hc
    · rw [if_neg hc] at hfn
      cases hfn
  refine ⟨?_, ?_⟩
  · intro hall
    have hnil : node_path_list cp g = [] := by
      rw [node_path_list, List.filterMap_eq_nil_iff]
      intro n hn
      rw [if_neg]
      simp [hall n hn]
    simp [gen_privesc_findings, hnil]
  · intro n hn hc
    have hmem : (n, (cp g n).2) ∈ node_path_list cp g := by
      rw [node_path_list, List.mem_filterMap]
      exact ⟨n, hn, by rw [if_pos hc]⟩
    have hlen : 0 < (node_path_list cp g).length :=
      List.length_pos.mpr (List.ne_nil_of_mem hmem)
    have hbody := privesc_body_from_eq (node_path_list cp g) hnp ""
    refine ⟨privesc_finding (node_path_list cp g)
      ((node_path_list cp g).foldl (fun acc p => acc ++ privesc_blockD p) ""),
      ?_, rfl, ?_⟩
    · simp [gen_privesc_findings, hlen, privesc_body, hbody]
    · intro m el e hm hcpm hlast
      have hmem' : (m, el) ∈ node_path_list cp g := by
        rw [node_path_list, List.mem_filterMap]
        refine ⟨m, hm, ?_⟩
        simp [hcpm]
      show strIn (privesc_line m e) (privesc_preamble ++ _) = true
      apply strIn_of_prefix_mem privesc_blockD _ (m, el) _ _ hmem'
      simp only [privesc_blockD, hlast, privesc_block, String.data_append,
        List.append_assoc]
      exact List.prefix_append _ _

/-- Witness for C4: the fixture oracle reports one escalating node in the fixture
graph, and the generator returns a single High finding naming the destination of the
last escalation edge. -/
theorem privesc_findings_witness :
    ∃ f, gen_privesc_findings cpW graphW = Except.ok [f] ∧ f.severity = "High"
      ∧ ∀ m el e, m ∈ graphW.nodes → cpW graphW m = (true, el) →
          el.getLast? = some e → strIn (privesc_line m e) f.description = true :=
  (privesc_findings_spec cpW graphW (by decide)).2 user_alice (by decide) (by decide)

/-- C7: the Report returned by `gen_report` carries the account identifier unchanged
from the snapshot metadata of the graph, and report generation leaves the graph, its
nodes and its metadata unmodified (the state-passing embedding returns the graph
unchanged). -/
theorem gen_report_frame (cp : CanPrivesc) (g : Graph) (now : Nat) (r : Report)
    (g2 : Graph) (h : gen_report_st cp g now = Except.ok (r, g2)) :
    r.account = g.metadata.account_id ∧ g2 = g := by
  rw [gen_report_st] at h
  cases hall : gen_all_findings cp g with
  | error e =>
    rw [hall] at h
    cases h
  | ok fs =>
    rw [hall] at h
    have h2 := Except.ok.inj h
    injection h2 with h3 h4
    subst h4
    rw [← h3]
    exact ⟨rfl, rfl⟩

/-- Witness for C7 on the empty fixture graph. -/
theorem gen_report_frame_witness :
    ({ account := "111122223333", date_and_time := 7, findings := [],
       source := report_source_text } : Report).account = graphE.metadata.account_id
    ∧ graphE = graphE :=
  gen_report_frame cpNone graphE 7 _ _ rfl

/-- C8: `gen_findings_to_file` performs no file write on any invocation and never
succeeds; whenever report generation succeeds (in particular whenever the external
`can_privesc` returns non-empty paths for escalating nodes), it raises TypeError at
the `os.curdir()` call — `os.curdir` is the string `.`, not a callable. -/
theorem gen_findings_to_file_spec (cp : CanPrivesc) (as_dict : Report → String)
    (dumps abspath : String → String) (isfile : String → Bool) (g : Graph) (now : Nat)
    (formatting file : String) :
    ((∀ n ∈ g.nodes, (cp g n).1 = true → (cp g n).2 ≠ []) →
      (gen_findings_to_file cp as_dict dumps abspath isfile g now formatting file).1
        = Except.error PyErr.typeError)
    ∧ (gen_findings_to_file cp as_dict dumps abspath isfile g now formatting file).2
        = []
    ∧ (gen_findings_to_file cp as_dict dumps abspath isfile g now formatting file).1
        ≠ Except.ok () := by
  refine ⟨?_, ?_, ?_⟩
  · intro h
    obtain ⟨l, hl⟩ := gen_privesc_findings_ok cp g h
    rw [gen_findings_to_file, gen_report, gen_all_findings, hl]
    rfl
  · cases hr : gen_report cp g now with
    | error e => simp [gen_findings_to_file, hr]
    | ok rep => simp [gen_findings_to_file, hr, pyCall0, os_curdir]
  · cases hr : gen_report cp g now with
    | error e => simp [gen_findings_to_file, hr]
    | ok rep => simp [gen_findings_to_file, hr, pyCall0, os_curdir]

/-- Witness for C8 at a concrete graph and concrete collaborators. -/
theorem gen_findings_to_file_witness :
    (gen_findings_to_file cpNone (fun r => r.account) id id (fun _ => false)
        graphW 0 "json" "out.txt").1 = Except.error PyErr.typeError :=
  (gen_findings_to_file_spec cpNone (fun r => r.account) id id (fun _ => false)
      graphW 0 "json" "out.txt").1 (by decide)

/-- C10: each of the five generators returns at most one finding, `gen_all_findings`
returns at most five, and every returned finding carries severity Low, Medium or
High. -/
theorem gen_all_findings_bounds (cp : CanPrivesc) (g : Graph) :
    (gen_mfa_actions_findings g).length ≤ 1
    ∧ (gen_overprivileged_function_findings g).length ≤ 1
    ∧ (gen_overprivileged_instance_profile_findings g).length ≤ 1
    ∧ (gen_overprivileged_stack_findings g).length ≤ 1
    ∧ (∀ l, gen_privesc_findings cp g = Except.ok l → l.length ≤ 1)
    ∧ ∀ fs, gen_all_findings cp g = Except.ok fs → fs.length ≤ 5
        ∧ ∀ f ∈ fs, f.severity = "Low" ∨ f.severity = "Medium"
            ∨ f.severity = "High" := by
  have h1 : (gen_mfa_actions_findings g).length ≤ 1 := by
    rw [gen_mfa_actions_findings]; split <;> simp
  have h2 : (gen_overprivileged_function_findings g).length ≤ 1 := by
    rw [gen_overprivileged_function_findings]; split <;> simp
  have h3 : (gen_overprivileged_instance_profile_findings g).length ≤ 1 := by
    rw [gen_overprivileged_instance_profile_findings]; split <;> simp
  have h4 : (gen_overprivileged_stack_findings g).length ≤ 1 := by
    rw [gen_overprivileged_stack_findings]; split <;> simp
  have hs1 : ∀ f ∈ gen_mfa_actions_findings g, f.severity = "Medium" := by
    rw [gen_mfa_actions_findings]
    split <;> intro f hf <;> simp_all
    subst hf; rfl
  have hs2 : ∀ f ∈ gen_overprivileged_function_findings g, f.severity = "Medium" := by
    rw [gen_overprivileged_function_findings]
    split <;> intro f hf <;> simp_all
    subst hf; rfl
  have hs3 : ∀ f ∈ gen_overprivileged_instance_profile_findings g,
      f.severity = "High" := by
    rw [gen_overprivileged_instance_profile_findings]
    split <;> intro f hf <;> simp_all
    subst hf; rfl
  have hs4 : ∀ f ∈ gen_overprivileged_stack_findings g, f.severity = "Low" := by
    rw [gen_overprivileged_stack_findings]
    split <;> intro f hf <;> simp_all
    subst hf; rfl
  have h5 : ∀ l, gen_privesc_findings cp g = Except.ok l →
      l.length ≤ 1 ∧ ∀ f ∈ l, f.severity = "High" := by
    intro l hl
    rw [gen_privesc_findings] at hl
    split at hl
    · split at hl
      · cases hl
      · cases hl
        refine ⟨by simp, ?_⟩
        intro f hf
        simp at hf
        subst hf; rfl
    · cases hl
      exact ⟨by simp, by intro f hf; cases hf⟩
  refine ⟨h1, h2, h3, h4, fun l hl => (h5 l hl).1, ?_⟩
  intro fs hfs
  rw [gen_all_findings] at hfs
  cases hpv : gen_privesc_findings cp g with
  | error e =>
    rw [hpv] at hfs
    cases hfs
  | ok l =>
    rw [hpv] at hfs
    cases hfs
    constructor
    · simp only [List.length_append]
      have := (h5 l hpv).1
      omega
    · intro f hf
      simp only [List.mem_append] at hf
      rcases hf with ((((hf | hf) | hf) | hf) | hf)
      · exact Or.inr (Or.inr ((h5 l hpv).2 f hf))
      · exact Or.inr (Or.inl (hs1 f hf))
      · exact Or.inr (Or.inl (hs2 f hf))
      · exact Or.inr (Or.inr (hs3 f hf))
      · exact Or.inl (hs4 f hf)

/-- Witness for C10: the concrete finding list produced on the fixture graph. -/
theorem gen_all_findings_bounds_witness :
    ([mfa_finding [user_alice], lambda_finding [role_lam],
      instance_profile_finding [role_lam]] : List Finding).length ≤ 5
    ∧ ∀ f ∈ ([mfa_finding [user_alice], lambda_finding [role_lam],
        instance_profile_finding [role_lam]] : List Finding),
        f.severity = "Low" ∨ f.severity = "Medium" ∨ f.severity = "High" :=
  (gen_all_findings_bounds cpNone graphW).2.2.2.2.2 _ rfl

end PMapper
